import Mathlib

/-!
Verification development for the consultation-accumulation and
AI-response-normalization pipeline of `streamlit_app.py`.

The Python source is shallowly embedded below:
* the JSON value model and a parser modelling Python's `json.loads`
  (restricted to integer numerals; floats, `NaN`/`Infinity` literals and
  `\u` string escapes are not modelled — no property below depends on them);
* the brace-span extractor modelling `re.search(r'\x7b.*\x7d', text, re.DOTALL)`
  inside `get_ai_analysis` (lines 133-148);
* the prompt builder of `get_ai_analysis` (lines 89-121);
* the per-session state and the `main` handlers: the Processar button
  (lines 236-254), the Clear Session button (lines 203-210) and the
  sidebar API-key input (lines 185-188).
-/

/-- The opening-brace character, written numerically. -/
def lbrace : Char := Char.ofNat 123

/-- The closing-brace character, written numerically. -/
def rbrace : Char := Char.ofNat 125

/-- JSON values as produced by `json.loads` (numbers restricted to integers). -/
inductive Json where
  | null : Json
  | bool (b : Bool) : Json
  | num (n : Int) : Json
  | str (s : String) : Json
  | arr (xs : List Json) : Json
  | obj (kvs : List (String × Json)) : Json

/-- Last-occurrence association lookup: Python's `dict` built by `json.loads`
keeps the value of the last duplicate key, so lookup returns the last binding. -/
def assocLast (kvs : List (String × Json)) (k : String) : Option Json :=
  match kvs with
  | [] => none
  | (k', v) :: rest =>
    match assocLast rest k with
    | some v' => some v'
    | none => if k' = k then some v else none

/-- Models Python's `dict.get(key, default)` on a parsed JSON value. -/
def Json.getD (j : Json) (k : String) (d : Json) : Json :=
  match j with
  | .obj kvs =>
    match assocLast kvs k with
    | some v => v
    | none => d
  | _ => d

/-- Models Python truthiness (`if analysis:` at line 244): empty containers,
empty strings, zero and `None`/`False` are falsy. -/
def Json.isTruthy : Json → Bool
  | .null => false
  | .bool b => b
  | .num n => n ≠ 0
  | .str s => s ≠ ""
  | .arr xs => !xs.isEmpty
  | .obj kvs => !kvs.isEmpty

/-- JSON insignificant whitespace. -/
def isJsonWs (c : Char) : Bool :=
  c = ' ' || c = '\n' || c = '\t' || c = '\r'

/-- Drop leading JSON whitespace. -/
def skipWs : List Char → List Char
  | [] => []
  | c :: cs => if isJsonWs c then skipWs cs else c :: cs

/-- Decode one character escape inside a JSON string literal
(`\u` escapes are not modelled). -/
def escChar (c : Char) : Option Char :=
  if c = '"' then some '"'
  else if c = '\\' then some '\\'
  else if c = '/' then some '/'
  else if c = 'n' then some '\n'
  else if c = 't' then some '\t'
  else if c = 'r' then some '\r'
  else if c = 'b' then some (Char.ofNat 8)
  else if c = 'f' then some (Char.ofNat 12)
  else none

/-- Parse the body of a JSON string literal, the opening quote already
consumed; returns the decoded string and the input after the closing quote. -/
def parseStringBody : List Char → Option (String × List Char)
  | [] => none
  | c :: cs =>
    if c = '"' then some ("", cs)
    else if c = '\\' then
      match cs with
      | [] => none
      | e :: cs' =>
        match escChar e with
        | none => none
        | some d => (parseStringBody cs').map (fun p => (⟨d :: p.1.data⟩, p.2))
    else (parseStringBody cs).map (fun p => (⟨c :: p.1.data⟩, p.2))

/-- Numeric value of a digit run. -/
def digitsVal (ds : List Char) : Nat :=
  ds.foldl (fun acc c => acc * 10 + (c.toNat - 48)) 0

/-- Parse a nonempty run of decimal digits. -/
def parseDigits (cs : List Char) : Option (Nat × List Char) :=
  let ds := cs.takeWhile Char.isDigit
  if ds.isEmpty then none else some (digitsVal ds, cs.dropWhile Char.isDigit)

mutual

/-- Recursive-descent JSON value parser modelling `json.loads`, fuelled to
make termination structural; `Json.parse` supplies ample fuel. -/
def parseVal : Nat → List Char → Option (Json × List Char)
  | 0, _ => none
  | Nat.succ fuel, cs =>
    match skipWs cs with
    | [] => none
    | c :: rest =>
      if c = '"' then (parseStringBody rest).map (fun p => (.str p.1, p.2))
      else if c = lbrace then
        match skipWs rest with
        | [] => none
        | c' :: rest' =>
          if c' = rbrace then some (.obj [], rest')
          else parseMembers fuel (c' :: rest') []
      else if c = '[' then
        match skipWs rest with
        | [] => none
        | c' :: rest' =>
          if c' = ']' then some (.arr [], rest')
          else parseElems fuel (c' :: rest') []
      else if c = '-' then
        match parseDigits rest with
        | some (n, rest') => some (.num (-(n : Int)), rest')
        | none => none
      else if c.isDigit then
        match parseDigits (c :: rest) with
        | some (n, rest') => some (.num (n : Int), rest')
        | none => none
      else if c = 't' then
        match rest with
        | 'r' :: 'u' :: 'e' :: r => some (.bool true, r)
        | _ => none
      else if c = 'f' then
        match rest with
        | 'a' :: 'l' :: 's' :: 'e' :: r => some (.bool false, r)
        | _ => none
      else if c = 'n' then
        match rest with
        | 'u' :: 'l' :: 'l' :: r => some (.null, r)
        | _ => none
      else none

/-- Parse the members of a JSON object after its opening brace
(at least one member present). -/
def parseMembers : Nat → List Char → List (String × Json) → Option (Json × List Char)
  | 0, _, _ => none
  | Nat.succ fuel, cs, acc =>
    match skipWs cs with
    | [] => none
    | c :: rest =>
      if c = '"' then
        match parseStringBody rest with
        | none => none
        | some (key, rest₁) =>
          match skipWs rest₁ with
          | ':' :: rest₂ =>
            match parseVal fuel rest₂ with
            | none => none
            | some (v, rest₃) =>
              match skipWs rest₃ with
              | [] => none
              | c₄ :: rest₄ =>
                if c₄ = ',' then parseMembers fuel rest₄ (acc ++ [(key, v)])
                else if c₄ = rbrace then some (.obj (acc ++ [(key, v)]), rest₄)
                else none
          | _ => none
      else none

/-- Parse the elements of a JSON array after its opening bracket
(at least one element present). -/
def parseElems : Nat → List Char → List Json → Option (Json × List Char)
  | 0, _, _ => none
  | Nat.succ fuel, cs, acc =>
    match parseVal fuel cs with
    | none => none
    | some (v, rest) =>
      match skipWs rest with
      | [] => none
      | c :: rest' =>
        if c = ',' then parseElems fuel rest' (acc ++ [v])
        else if c = ']' then some (.arr (acc ++ [v]), rest')
        else none

end

/-- Parse a whole character list as one JSON document, requiring that only
whitespace remain, as `json.loads` does. -/
def parseChars (cs : List Char) : Option Json :=
  match parseVal (cs.length + 1) cs with
  | some (v, rest) => if (skipWs rest).isEmpty then some v else none
  | none => none

/-- Models `json.loads` on a string (`analysis = json.loads(json_str)`, line 137). -/
def Json.parse (s : String) : Option Json := parseChars s.data

/-- Index of the first occurrence of a character in a list, if any. -/
def firstIdx (c : Char) : List Char → Option Nat
  | [] => none
  | x :: xs => if x = c then some 0 else (firstIdx c xs).map (· + 1)

/-- Index of the last occurrence of a character in a list, if any. -/
def lastIdx (c : Char) : List Char → Option Nat
  | [] => none
  | x :: xs =>
    match lastIdx c xs with
    | some k => some (k + 1)
    | none => if x = c then some 0 else none

/-- Models `re.search(r'\x7b.*\x7d', response_text, re.DOTALL)` at line 133:
the leftmost match of that pattern starts at the first `\x7b` that is followed
by some later `\x7d`, and the greedy `.*` extends it to the last `\x7d` of the
whole string; when the first `\x7b` precedes the last `\x7d` that span is
exactly the slice from the first `\x7b` to the last `\x7d`, and otherwise the
pattern has no match anywhere. -/
def extractSpan (cs : List Char) : Option (List Char) :=
  match firstIdx lbrace cs, lastIdx rbrace cs with
  | some i, some j => if i < j then some ((cs.drop i).take (j - i + 1)) else none
  | _, _ => none

/-- The two failure modes of the response extractor: no brace span found
(lines 140-143) and a span that `json.loads` rejects (lines 145-148). -/
inductive ExtractError where
  | NoPayloadFound : ExtractError
  | MalformedPayload : ExtractError
deriving DecidableEq

/-- The structured-response extractor of `get_ai_analysis` (lines 133-148):
locate the brace span in the raw response and parse it as JSON. -/
def extract (raw : String) : Except ExtractError Json :=
  match extractSpan raw.data with
  | none => .error .NoPayloadFound
  | some span =>
    match parseChars span with
    | some a => .ok a
    | none => .error .MalformedPayload

/-- Models Python whitespace for `str.strip()`. -/
def isPyWs (c : Char) : Bool :=
  c = ' ' || c = '\t' || c = '\n' || c = '\r' || c = Char.ofNat 11 || c = Char.ofNat 12

/-- Models Python's `str.strip()` (used at lines 237-238). -/
def pyStrip (s : String) : String :=
  ⟨((s.data.dropWhile isPyWs).reverse.dropWhile isPyWs).reverse⟩

/-- Models `"\n".join(...)` (line 89). -/
def joinLines : List String → String
  | [] => ""
  | [x] => x
  | x :: y :: xs => x ++ "\n" ++ joinLines (y :: xs)

/-- The tag applied to the observation at 0-based position `i`
(the f-string `Input ...` at line 89). -/
def inputTag (i : Nat) (data : String) : String :=
  "Input " ++ toString (i + 1) ++ ": " ++ data

/-- The tagged observation lines starting at 0-based position `i`
(the list comprehension over `enumerate` at line 89). -/
def tagLinesFrom (i : Nat) : List String → List String
  | [] => []
  | d :: ds => inputTag i d :: tagLinesFrom (i + 1) ds

/-- The tagged observation lines, in insertion order (`enumerate` at line 89). -/
def tagLines (consultation_data : List String) : List String :=
  tagLinesFrom 0 consultation_data

/-- The joined consultation history of `get_ai_analysis` (line 89). -/
def consultation_text (consultation_data : List String) : String :=
  joinLines (tagLines consultation_data)

/-- The prompt text preceding the interpolated consultation history
(lines 91-95 of the f-string). -/
def promptHeader : String :=
  "\nAs a medical AI assistant, analyze the following consultation data and provide:\n\nConsultation Data:\n"

/-- The fixed instruction block following the interpolated consultation
history (lines 96-121 of the f-string): the expected JSON shape with field
names and an example, then the output-language and tone constraints. -/
def promptInstructions : String :=
  "\n\nPlease provide your response in the following JSON format:\n\x7b\n    \"diagnoses\": [\n        \x7b\"condition\": \"Diagnosis 1\", \"probability\": 85\x7d,\n        \x7b\"condition\": \"Diagnosis 2\", \"probability\": 70\x7d,\n        \x7b\"condition\": \"Diagnosis 3\", \"probability\": 45\x7d,\n        \x7b\"condition\": \"Diagnosis 4\", \"probability\": 30\x7d\n    ],\n    \"follow_up_questions\": [\n        \"Question 1 to gather more information\",\n        \"Question 2 to clarify symptoms\",\n        \"Question 3 to understand duration\"\n    ],\n    \"suggested_conduct\": \"Immediate actions and treatment recommendations, in Brazilian Portuguese\",\n    \"suggested_followup\": \"Recommended examinations, tests, and follow-up appointments, in Brazilian Portuguese\"\n\x7d\n\nImportant:\n- Diagnoses should be ranked by probability (highest first) and must be in Brazilian Portuguese\n- Probabilities should be realistic and sum to reasonable medical uncertainty\n- Follow-up questions should be specific and relevant to the current information\n- Conduct suggestions should be immediate, actionable medical advice\n- Follow-up should include specific tests, examinations, or specialist referrals\n- Keep medical advice general and emphasize the need for proper medical evaluation\n"

/-- The prompt of `get_ai_analysis` (lines 91-121): the f-string has one
interpolation point, the joined consultation history. -/
def build_prompt (consultation_data : List String) : String :=
  promptHeader ++ consultation_text consultation_data ++ promptInstructions

/-- Outcome of one `model.generate_content` call (line 125): the response
text, or an exception (caught by the `except` clauses at lines 149-152). -/
inductive GatewayResult where
  | success (text : String) : GatewayResult
  | failure (msg : String) : GatewayResult

/-- `get_ai_analysis` (lines 85-152), with the external model as an oracle
from the prompt to a gateway outcome: build the prompt from the full
history, call the model, extract the JSON payload; every failure path
returns `none` (Python `None`). -/
def get_ai_analysis (consultation_data : List String) (model : String → GatewayResult) :
    Option Json :=
  match model (build_prompt consultation_data) with
  | .failure _ => none
  | .success response_text =>
    match extract response_text with
    | .ok a => some a
    | .error _ => none

/-- The per-session state initialized at lines 60-73. -/
structure SessionState where
  consultation_data : List String
  api_key : String
  current_diagnoses : Json
  follow_up_questions : Json
  suggested_conduct : Json
  suggested_followup : Json
  input_key : Nat

/-- The initial session state (lines 60-73): empty history, empty key,
empty lists and empty strings. -/
def initialState : SessionState :=
  { consultation_data := []
    api_key := ""
    current_diagnoses := .arr []
    follow_up_questions := .arr []
    suggested_conduct := .str ""
    suggested_followup := .str ""
    input_key := 0 }

/-- Which branch of the Processar handler ran: the processing branch
(line 237) or the rejection `st.error` branch (line 254). -/
inductive SubmitOutcome where
  | processed : SubmitOutcome
  | emptyInput : SubmitOutcome
deriving DecidableEq

/-- The Processar button handler (lines 236-254): if the stripped input is
non-empty, append it, run `get_ai_analysis` on the whole history, store the
four fields when the result is truthy (`if analysis:`), and bump
`input_key`; otherwise report empty input and change nothing. -/
def submit (s : SessionState) (medical_input : String) (model : String → GatewayResult) :
    SessionState × SubmitOutcome :=
  if pyStrip medical_input ≠ "" then
    let s1 := { s with consultation_data := s.consultation_data ++ [pyStrip medical_input] }
    let s2 :=
      match get_ai_analysis s1.consultation_data model with
      | some analysis =>
        if analysis.isTruthy then
          { s1 with
            current_diagnoses := analysis.getD "diagnoses" (.arr [])
            follow_up_questions := analysis.getD "follow_up_questions" (.arr [])
            suggested_conduct := analysis.getD "suggested_conduct" (.str "")
            suggested_followup := analysis.getD "suggested_followup" (.str "") }
        else s1
      | none => s1
    ({ s2 with input_key := s2.input_key + 1 }, .processed)
  else (s, .emptyInput)

/-- The Clear Session button handler (lines 203-210): history and the four
analysis fields are reset and the input widget key is bumped; the API key
is not touched. -/
def clear (s : SessionState) : SessionState :=
  { s with
    consultation_data := []
    current_diagnoses := .arr []
    follow_up_questions := .arr []
    suggested_conduct := .str ""
    suggested_followup := .str ""
    input_key := s.input_key + 1 }

/-- The sidebar API-key input (lines 185-188): a truthy (non-empty) value
is stored, an empty one leaves the state alone. -/
def set_api_key (s : SessionState) (key : String) : SessionState :=
  if key ≠ "" then { s with api_key := key } else s

/-- Session state instrumented with provenance for the stored analysis:
`deriv` records, for the most recent successful and truthy analysis since
the last clear, the observation history it was derived from and the parsed
payload; `none` when no analysis has been stored since the session began
or was last cleared. -/
structure Traced where
  state : SessionState
  deriv : Option (List String × Json)

/-- One Processar submission on an instrumented session: the visible state
moves exactly as `submit` moves it, and the provenance is replaced exactly
when the handler stores a new analysis (truthy result of `get_ai_analysis`
on the updated history). -/
def stepSubmit (t : Traced) (input : String) (model : String → GatewayResult) : Traced :=
  { state := (submit t.state input model).1
    deriv :=
      if pyStrip input ≠ "" then
        match get_ai_analysis (t.state.consultation_data ++ [pyStrip input]) model with
        | some analysis =>
          if analysis.isTruthy then
            some (t.state.consultation_data ++ [pyStrip input], analysis)
          else t.deriv
        | none => t.deriv
      else t.deriv }

/-- The instrumented sessions reachable by the app: start at the initial
state, then any interleaving of API-key entry, Processar submissions (only
available once a key is configured, lines 213-221) and Clear Session. -/
inductive Reach : Traced → Prop
  | init : Reach ⟨initialState, none⟩
  | submit_step {t : Traced} (input : String) (model : String → GatewayResult) :
      Reach t → t.state.api_key ≠ "" → Reach (stepSubmit t input model)
  | clear_step {t : Traced} : Reach t → Reach ⟨clear t.state, none⟩
  | set_key_step {t : Traced} (k : String) : Reach t → Reach ⟨set_api_key t.state k, t.deriv⟩

/-- The four analysis fields hold their initial empty values. -/
def analysisInitial (s : SessionState) : Prop :=
  s.current_diagnoses = .arr [] ∧ s.follow_up_questions = .arr [] ∧
  s.suggested_conduct = .str "" ∧ s.suggested_followup = .str ""

/-- The four stored analysis fields are exactly the field resolutions of
the truthy parsed payload `a`. -/
def derivedFrom (s : SessionState) (a : Json) : Prop :=
  a.isTruthy = true ∧
  s.current_diagnoses = a.getD "diagnoses" (.arr []) ∧
  s.follow_up_questions = a.getD "follow_up_questions" (.arr []) ∧
  s.suggested_conduct = a.getD "suggested_conduct" (.str "") ∧
  s.suggested_followup = a.getD "suggested_followup" (.str "")

/-- The invariant claimed by the spec, stated as written: the stored
analysis is fully absent, or fully derived from the observation list
currently stored. -/
def StrictDerivInv (t : Traced) : Prop :=
  match t.deriv with
  | none => analysisInitial t.state
  | some (l, a) => l = t.state.consultation_data ∧ derivedFrom t.state a

/-- The invariant the code actually maintains: the stored analysis is
fully absent, or fully derived from a prefix of the current observation
list (the history at the most recent successful analysis). -/
def DerivInv (t : Traced) : Prop :=
  match t.deriv with
  | none => analysisInitial t.state
  | some (l, a) => l <+: t.state.consultation_data ∧ derivedFrom t.state a

/-- A concrete session that already holds one observation and a previously
derived analysis, used to witness the submit-path claims. -/
def priorSession : SessionState :=
  { consultation_data := ["a"]
    api_key := "k"
    current_diagnoses := .arr [.num 7]
    follow_up_questions := .arr [.str "q"]
    suggested_conduct := .str "done"
    suggested_followup := .str "lab"
    input_key := 1 }

/-- Gateway oracle for the C4 counterexample run 1: a successful analysis. -/
def cx4model1 : String → GatewayResult :=
  fun _ => .success "\x7b\"diagnoses\": [\x7b\"condition\": \"Dengue\", \"probability\": 60\x7d]\x7d"

/-- Gateway oracle for the C4 counterexample run 2: a transport failure. -/
def cx4model2 : String → GatewayResult :=
  fun _ => .failure "network unreachable"

/-- The C4 counterexample trace: configure a key, submit `a` successfully,
then submit `b` while the gateway fails. -/
def cx4end : Traced :=
  stepSubmit (stepSubmit ⟨set_api_key initialState "k", none⟩ "a" cx4model1) "b" cx4model2

/-- Position `i` holds the first occurrence of `c`. -/
def IsFirstIdx (c : Char) (cs : List Char) (i : Nat) : Prop :=
  cs[i]? = some c ∧ ∀ k, k < i → cs[k]? ≠ some c

/-- Position `j` holds the last occurrence of `c`. -/
def IsLastIdx (c : Char) (cs : List Char) (j : Nat) : Prop :=
  cs[j]? = some c ∧ ∀ k, j < k → cs[k]? ≠ some c

lemma firstIdx_eq_none_iff (c : Char) (cs : List Char) :
    firstIdx c cs = none ↔ ∀ k : Nat, cs[k]? ≠ some c := by
  induction cs with
  | nil => simp [firstIdx]
  | cons x xs ih =>
    by_cases hx : x = c
    · simp only [firstIdx, if_pos hx]
      constructor
      · intro h; exact absurd h (by simp)
      · intro h; exact absurd hx (by simpa using h 0)
    · simp only [firstIdx, if_neg hx, Option.map_eq_none']
      rw [ih]
      constructor
      · intro h k
        cases k with
        | zero => simp [hx]
        | succ k => simpa using h k
      · intro h k
        simpa using h (k + 1)

lemma firstIdx_eq_some_iff (c : Char) (cs : List Char) (i : Nat) :
    firstIdx c cs = some i ↔ IsFirstIdx c cs i := by
  induction cs generalizing i with
  | nil => simp [firstIdx, IsFirstIdx]
  | cons x xs ih =>
    by_cases hx : x = c
    · simp only [firstIdx, if_pos hx]
      constructor
      · rintro ⟨rfl⟩
        exact ⟨by simp [hx], by omega⟩
      · rintro ⟨h1, h2⟩
        cases i with
        | zero => rfl
        | succ i => exact absurd (h2 0 (by omega)) (by simp [hx])
    · simp only [firstIdx, if_neg hx]
      constructor
      · intro h
        obtain ⟨i', hi', rfl⟩ := Option.map_eq_some'.mp h
        obtain ⟨h1, h2⟩ := (ih i').mp hi'
        refine ⟨by simpa using h1, ?_⟩
        intro k hk
        cases k with
        | zero => simp [hx]
        | succ k => simpa using h2 k (by omega)
      · rintro ⟨h1, h2⟩
        cases i with
        | zero => exact absurd h1 (by simp [hx])
        | succ i =>
          rw [Option.map_eq_some']
          refine ⟨i, (ih i).mpr ⟨by simpa using h1, ?_⟩, rfl⟩
          intro k hk
          simpa using h2 (k + 1) (by omega)

lemma lastIdx_eq_none_iff (c : Char) (cs : List Char) :
    lastIdx c cs = none ↔ ∀ k : Nat, cs[k]? ≠ some c := by
  induction cs with
  | nil => simp [lastIdx]
  | cons x xs ih =>
    simp only [lastIdx]
    cases h : lastIdx c xs with
    | some k =>
      constructor
      · intro hh; exact absurd hh (by simp)
      · intro hh
        have hnone : lastIdx c xs = none := ih.mpr (fun m => by simpa using hh (m + 1))
        rw [hnone] at h
        exact absurd h (by simp)
    | none =>
      have hxs := ih.mp h
      by_cases hx : x = c
      · simp only [if_pos hx]
        constructor
        · intro hh; exact absurd hh (by simp)
        · intro hh; exact absurd hx (by simpa using hh 0)
      · simp only [if_neg hx]
        constructor
        · intro _ k
          cases k with
          | zero => simp [hx]
          | succ k => simpa using hxs k
        · intro _
          trivial

lemma lastIdx_eq_some_iff (c : Char) (cs : List Char) (j : Nat) :
    lastIdx c cs = some j ↔ IsLastIdx c cs j := by
  induction cs generalizing j with
  | nil => simp [lastIdx, IsLastIdx]
  | cons x xs ih =>
    simp only [lastIdx]
    cases h : lastIdx c xs with
    | some k =>
      obtain ⟨h1, h2⟩ := (ih k).mp h
      simp only []
      constructor
      · rintro ⟨rfl⟩
        refine ⟨by simpa using h1, ?_⟩
        intro m hm
        cases m with
        | zero => omega
        | succ m => simpa using h2 m (by omega)
      · rintro ⟨g1, g2⟩
        cases j with
        | zero =>
          exact absurd (g2 (k + 1) (by omega)) (by simp; simpa using h1)
        | succ j =>
          have hj : IsLastIdx c xs j := ⟨by simpa using g1, fun m hm => by simpa using g2 (m + 1) (by omega)⟩
          have : j = k := by
            by_contra hne
            rcases Nat.lt_or_ge j k with hlt | hge
            · exact absurd h1 (hj.2 k hlt)
            · exact absurd hj.1 (h2 j (by omega))
          simp [this]
    | none =>
      have hnone := (lastIdx_eq_none_iff c xs).mp h
      by_cases hx : x = c
      · simp only [if_pos hx]
        constructor
        · rintro ⟨rfl⟩
          refine ⟨by simp [hx], ?_⟩
          intro m hm
          cases m with
          | zero => omega
          | succ m => simpa using hnone m
        · rintro ⟨g1, g2⟩
          cases j with
          | zero => rfl
          | succ j => exact absurd (by simpa using g1) (hnone j)
      · simp only [if_neg hx]
        constructor
        · intro hh; exact absurd hh (by simp)
        · rintro ⟨g1, g2⟩
          cases j with
          | zero => exact absurd g1 (by simp [hx])
          | succ j => exact absurd (by simpa using g1) (hnone j)

lemma lbrace_ne_rbrace : lbrace ≠ rbrace := by decide

lemma extractSpan_eq_none_iff (cs : List Char) :
    extractSpan cs = none ↔
      ¬ ∃ i j : Nat, i < j ∧ cs[i]? = some lbrace ∧ cs[j]? = some rbrace := by
  unfold extractSpan
  cases h1 : firstIdx lbrace cs with
  | none =>
    have hno := (firstIdx_eq_none_iff lbrace cs).mp h1
    refine iff_of_true (by rfl) ?_
    rintro ⟨i, j, _, hi, _⟩
    exact hno i hi
  | some i =>
    have hfi := (firstIdx_eq_some_iff lbrace cs i).mp h1
    cases h2 : lastIdx rbrace cs with
    | none =>
      have hno := (lastIdx_eq_none_iff rbrace cs).mp h2
      refine iff_of_true (by rfl) ?_
      rintro ⟨i', j', _, _, hj'⟩
      exact hno j' hj'
    | some j =>
      have hlj := (lastIdx_eq_some_iff rbrace cs j).mp h2
      by_cases hij : i < j
      · refine iff_of_false ?_ ?_
        · show (if i < j then some ((cs.drop i).take (j - i + 1)) else none) = none → False
          rw [if_pos hij]
          simp
        · exact fun h => h ⟨i, j, hij, hfi.1, hlj.1⟩
      · refine iff_of_true ?_ ?_
        · show (if i < j then some ((cs.drop i).take (j - i + 1)) else none) = none
          rw [if_neg hij]
        · rintro ⟨i', j', hij', hi', hj'⟩
          have g1 : ¬ i' < i := fun hlt => hfi.2 i' hlt hi'
          have g2 : ¬ j < j' := fun hlt => hlj.2 j' hlt hj'
          omega

lemma extractSpan_eq_of_first_last (cs : List Char) (i j : Nat)
    (hf : IsFirstIdx lbrace cs i) (hl : IsLastIdx rbrace cs j) (hij : i < j) :
    extractSpan cs = some ((cs.drop i).take (j - i + 1)) := by
  unfold extractSpan
  rw [(firstIdx_eq_some_iff lbrace cs i).mpr hf, (lastIdx_eq_some_iff rbrace cs j).mpr hl]
  show (if i < j then some ((cs.drop i).take (j - i + 1)) else none) =
    some ((cs.drop i).take (j - i + 1))
  rw [if_pos hij]

lemma extractSpan_embed (b p a : List Char)
    (hb : ∀ c ∈ b, c ≠ lbrace) (hp1 : p[0]? = some lbrace)
    (hp2 : p.getLast? = some rbrace) (ha : ∀ c ∈ a, c ≠ rbrace) :
    extractSpan (b ++ p ++ a) = some p := by
  have hplen : 0 < p.length := by
    cases p with
    | nil => exact absurd hp1 (by simp)
    | cons _ _ => simp
  have hplen2 : 2 ≤ p.length := by
    by_contra h
    have h1 : p.length = 1 := by omega
    rw [List.getLast?_eq_getElem? p, h1] at hp2
    simp only [Nat.sub_self] at hp2
    rw [hp2] at hp1
    exact lbrace_ne_rbrace ((Option.some.inj hp1).symm)
  have hassoc : b ++ p ++ a = b ++ (p ++ a) := by rw [List.append_assoc]
  have hf : IsFirstIdx lbrace (b ++ p ++ a) b.length := by
    constructor
    · rw [hassoc, List.getElem?_append_right (Nat.le_refl b.length), Nat.sub_self,
        List.getElem?_append_left hplen]
      exact hp1
    · intro k hk hget
      rw [hassoc, List.getElem?_append_left hk] at hget
      exact hb _ (List.getElem?_mem hget) rfl
  have hl : IsLastIdx rbrace (b ++ p ++ a) (b.length + (p.length - 1)) := by
    constructor
    · rw [hassoc, List.getElem?_append_right (by omega)]
      have heq : b.length + (p.length - 1) - b.length = p.length - 1 := by omega
      rw [heq, List.getElem?_append_left (by omega)]
      rw [List.getLast?_eq_getElem? p] at hp2
      exact hp2
    · intro k hk hget
      rcases Nat.lt_or_ge k (b ++ p ++ a).length with hlen | hlen
      · rw [hassoc, List.getElem?_append_right (by omega : b.length ≤ k),
          List.getElem?_append_right (by
            simp only [List.length_append] at hlen ⊢
            omega)] at hget
        exact ha _ (List.getElem?_mem hget) rfl
      · rw [List.getElem?_eq_none hlen] at hget
        exact absurd hget (by simp)
  have hspan := extractSpan_eq_of_first_last (b ++ p ++ a) b.length
    (b.length + (p.length - 1)) hf hl (by omega)
  rw [hspan]
  have harith : b.length + (p.length - 1) - b.length + 1 = p.length := by omega
  rw [harith, hassoc, List.drop_left, List.take_left]

lemma extract_embed (B P A : String) (r : Json)
    (hb : ∀ c ∈ B.data, c ≠ lbrace) (hp1 : P.data[0]? = some lbrace)
    (hp2 : P.data.getLast? = some rbrace) (ha : ∀ c ∈ A.data, c ≠ rbrace)
    (hparse : Json.parse P = some r) :
    extract (B ++ P ++ A) = .ok r := by
  have hdata : (B ++ P ++ A).data = B.data ++ P.data ++ A.data := by
    simp [String.data_append]
  unfold extract
  rw [hdata, extractSpan_embed B.data P.data A.data hb hp1 hp2 ha]
  show (match parseChars P.data with
    | some a => Except.ok a
    | none => Except.error ExtractError.MalformedPayload) = Except.ok r
  unfold Json.parse at hparse
  rw [hparse]

lemma get_ai_analysis_eq_none_iff (cd : List String) (model : String → GatewayResult) :
    get_ai_analysis cd model = none ↔
      (∃ msg, model (build_prompt cd) = .failure msg) ∨
      (∃ text e, model (build_prompt cd) = .success text ∧ extract text = .error e) := by
  constructor
  · intro h
    unfold get_ai_analysis at h
    cases hm : model (build_prompt cd) with
    | failure msg => exact Or.inl ⟨msg, rfl⟩
    | success text =>
      rw [hm] at h
      have h' : (match extract text with
          | Except.ok a => some a
          | Except.error _ => none) = none := h
      cases he : extract text with
      | ok a => rw [he] at h'; exact absurd h' (by simp)
      | error e => exact Or.inr ⟨text, e, rfl, he⟩
  · intro h
    unfold get_ai_analysis
    rcases h with ⟨msg, hmsg⟩ | ⟨text, e, htext, hext⟩
    · rw [hmsg]
    · rw [htext]
      show (match extract text with
          | Except.ok a => some a
          | Except.error _ => none) = none
      rw [hext]

lemma get_ai_analysis_eq_some (cd : List String) (model : String → GatewayResult)
    (text : String) (a : Json) (hm : model (build_prompt cd) = .success text)
    (he : extract text = .ok a) :
    get_ai_analysis cd model = some a := by
  unfold get_ai_analysis
  rw [hm]
  show (match extract text with
      | Except.ok a => some a
      | Except.error _ => none) = some a
  rw [he]

lemma submit_eq_of_none (s : SessionState) (input : String) (model : String → GatewayResult)
    (hne : pyStrip input ≠ "")
    (h : get_ai_analysis (s.consultation_data ++ [pyStrip input]) model = none) :
    submit s input model =
      ({ s with consultation_data := s.consultation_data ++ [pyStrip input],
                input_key := s.input_key + 1 }, .processed) := by
  unfold submit
  rw [if_pos hne]
  simp only [h]

lemma submit_eq_of_falsy (s : SessionState) (input : String) (model : String → GatewayResult)
    (a : Json) (hne : pyStrip input ≠ "")
    (h : get_ai_analysis (s.consultation_data ++ [pyStrip input]) model = some a)
    (hf : a.isTruthy = false) :
    submit s input model =
      ({ s with consultation_data := s.consultation_data ++ [pyStrip input],
                input_key := s.input_key + 1 }, .processed) := by
  unfold submit
  rw [if_pos hne]
  simp only [h, hf]
  rfl

lemma submit_eq_of_truthy (s : SessionState) (input : String) (model : String → GatewayResult)
    (a : Json) (hne : pyStrip input ≠ "")
    (h : get_ai_analysis (s.consultation_data ++ [pyStrip input]) model = some a)
    (ht : a.isTruthy = true) :
    submit s input model =
      ({ s with consultation_data := s.consultation_data ++ [pyStrip input],
                current_diagnoses := a.getD "diagnoses" (.arr []),
                follow_up_questions := a.getD "follow_up_questions" (.arr []),
                suggested_conduct := a.getD "suggested_conduct" (.str ""),
                suggested_followup := a.getD "suggested_followup" (.str ""),
                input_key := s.input_key + 1 }, .processed) := by
  unfold submit
  rw [if_pos hne]
  simp only [h, ht]
  rfl

lemma submit_eq_of_empty (s : SessionState) (input : String) (model : String → GatewayResult)
    (he : pyStrip input = "") :
    submit s input model = (s, .emptyInput) := by
  unfold submit
  rw [if_neg (by simp [he])]

lemma assocLast_eq_none_iff (kvs : List (String × Json)) (k : String) :
    assocLast kvs k = none ↔ k ∉ kvs.map Prod.fst := by
  induction kvs with
  | nil => simp [assocLast]
  | cons kv rest ih =>
    obtain ⟨k', v⟩ := kv
    simp only [assocLast]
    cases h : assocLast rest k with
    | some v' =>
      refine iff_of_false (by simp) ?_
      intro hmem
      simp only [List.map_cons, List.mem_cons] at hmem
      push_neg at hmem
      have hnone : assocLast rest k = none := ih.mpr hmem.2
      rw [hnone] at h
      exact absurd h (by simp)
    | none =>
      by_cases hk : k' = k
      · refine iff_of_false (by simp [hk]) ?_
        intro hmem
        exact hmem (by simp [hk])
      · rw [if_neg hk]
        refine iff_of_true rfl ?_
        simp only [List.map_cons, List.mem_cons]
        push_neg
        exact ⟨fun h' => hk h'.symm, ih.mp h⟩

lemma getD_of_not_mem (kvs : List (String × Json)) (k : String) (d : Json)
    (h : k ∉ kvs.map Prod.fst) : (Json.obj kvs).getD k d = d := by
  show (match assocLast kvs k with | some v => v | none => d) = d
  rw [(assocLast_eq_none_iff kvs k).mpr h]

lemma getD_of_assocLast (kvs : List (String × Json)) (k : String) (d v : Json)
    (h : assocLast kvs k = some v) : (Json.obj kvs).getD k d = v := by
  show (match assocLast kvs k with | some v => v | none => d) = v
  rw [h]

lemma obj_isTruthy_of_ne_nil (kvs : List (String × Json)) (h : kvs ≠ []) :
    (Json.obj kvs).isTruthy = true := by
  cases kvs with
  | nil => exact absurd rfl h
  | cons kv rest => rfl

lemma tagLinesFrom_getElem? (cd : List String) (n i : Nat) :
    (tagLinesFrom n cd)[i]? = (cd[i]?).map (fun s => inputTag (n + i) s) := by
  induction cd generalizing n i with
  | nil => simp [tagLinesFrom]
  | cons d ds ih =>
    cases i with
    | zero => simp [tagLinesFrom]
    | succ i =>
      simp only [tagLinesFrom, List.getElem?_cons_succ, ih (n + 1) i]
      have : n + 1 + i = n + (i + 1) := by omega
      rw [this]

lemma tagLines_length (cd : List String) : (tagLines cd).length = cd.length := by
  unfold tagLines
  generalize 0 = n
  induction cd generalizing n with
  | nil => rfl
  | cons d ds ih => simp [tagLinesFrom, ih]

lemma submit_processed_parts (s : SessionState) (input : String)
    (model : String → GatewayResult) (hne : pyStrip input ≠ "") :
    (submit s input model).1.consultation_data = s.consultation_data ++ [pyStrip input] ∧
    (submit s input model).2 = .processed := by
  cases h : get_ai_analysis (s.consultation_data ++ [pyStrip input]) model with
  | none => rw [submit_eq_of_none s input model hne h]; exact ⟨rfl, rfl⟩
  | some a =>
    cases ht : a.isTruthy with
    | false => rw [submit_eq_of_falsy s input model a hne h ht]; exact ⟨rfl, rfl⟩
    | true => rw [submit_eq_of_truthy s input model a hne h ht]; exact ⟨rfl, rfl⟩

lemma extract_eq_of_span_none (raw : String) (hs : extractSpan raw.data = none) :
    extract raw = .error .NoPayloadFound := by
  unfold extract
  rw [hs]

lemma extract_eq_of_span (raw : String) (span : List Char)
    (hs : extractSpan raw.data = some span) :
    extract raw = (match parseChars span with
      | some a => Except.ok a
      | none => Except.error ExtractError.MalformedPayload) := by
  unfold extract
  rw [hs]

lemma stepSubmit_of_empty (t : Traced) (input : String) (model : String → GatewayResult)
    (he : pyStrip input = "") : stepSubmit t input model = t := by
  unfold stepSubmit
  rw [submit_eq_of_empty t.state input model he, if_neg (by simp [he])]

lemma stepSubmit_of_none (t : Traced) (input : String) (model : String → GatewayResult)
    (hne : pyStrip input ≠ "")
    (h : get_ai_analysis (t.state.consultation_data ++ [pyStrip input]) model = none) :
    stepSubmit t input model = ⟨(submit t.state input model).1, t.deriv⟩ := by
  unfold stepSubmit
  rw [if_pos hne, h]

lemma stepSubmit_of_falsy (t : Traced) (input : String) (model : String → GatewayResult)
    (a : Json) (hne : pyStrip input ≠ "")
    (h : get_ai_analysis (t.state.consultation_data ++ [pyStrip input]) model = some a)
    (hf : a.isTruthy = false) :
    stepSubmit t input model = ⟨(submit t.state input model).1, t.deriv⟩ := by
  unfold stepSubmit
  rw [if_pos hne, h]
  simp only [hf]
  rfl

lemma stepSubmit_of_truthy (t : Traced) (input : String) (model : String → GatewayResult)
    (a : Json) (hne : pyStrip input ≠ "")
    (h : get_ai_analysis (t.state.consultation_data ++ [pyStrip input]) model = some a)
    (ht : a.isTruthy = true) :
    stepSubmit t input model =
      ⟨(submit t.state input model).1,
       some (t.state.consultation_data ++ [pyStrip input], a)⟩ := by
  unfold stepSubmit
  rw [if_pos hne, h]
  simp only [ht]
  rfl

/-- C1: on every raw model-response string the extractor selects the span
from the first opening brace to the last closing brace; when no such span
exists (no opening brace with a later closing brace) it fails with
`NoPayloadFound`; when the span does not parse as JSON it fails with
`MalformedPayload`; and every run ends in exactly one of success,
`NoPayloadFound`, or `MalformedPayload`. -/
theorem extract_selects_first_to_last_span (raw : String) :
    ((∃ v, extract raw = .ok v) ∨ extract raw = .error .NoPayloadFound ∨
      extract raw = .error .MalformedPayload)
  ∧ (extract raw = .error .NoPayloadFound ↔
      ¬ ∃ i j : Nat, i < j ∧ raw.data[i]? = some lbrace ∧ raw.data[j]? = some rbrace)
  ∧ (∀ i j : Nat, IsFirstIdx lbrace raw.data i → IsLastIdx rbrace raw.data j → i < j →
      ((∀ v, (extract raw = .ok v ↔
          parseChars ((raw.data.drop i).take (j - i + 1)) = some v))
       ∧ (extract raw = .error .MalformedPayload ↔
          parseChars ((raw.data.drop i).take (j - i + 1)) = none))) := by
  refine ⟨?_, ?_, ?_⟩
  · cases hs : extractSpan raw.data with
    | none => exact Or.inr (Or.inl (extract_eq_of_span_none raw hs))
    | some span =>
      rw [extract_eq_of_span raw span hs]
      cases parseChars span with
      | some v => exact Or.inl ⟨v, rfl⟩
      | none => exact Or.inr (Or.inr rfl)
  · cases hs : extractSpan raw.data with
    | none =>
      exact iff_of_true (extract_eq_of_span_none raw hs)
        ((extractSpan_eq_none_iff raw.data).mp hs)
    | some span =>
      refine iff_of_false ?_ ?_
      · rw [extract_eq_of_span raw span hs]
        cases parseChars span <;> simp
      · intro hno
        rw [← extractSpan_eq_none_iff raw.data] at hno
        rw [hno] at hs
        exact absurd hs (by simp)
  · intro i j hf hl hij
    have hs := extractSpan_eq_of_first_last raw.data i j hf hl hij
    rw [extract_eq_of_span raw _ hs]
    cases hp : parseChars ((raw.data.drop i).take (j - i + 1)) with
    | some v' =>
      constructor
      · intro v
        constructor
        · intro h
          injection h with h
          rw [h]
        · intro h
          injection h with h
          rw [h]
      · exact iff_of_false (by simp) (by simp)
    | none =>
      constructor
      · intro v
        exact iff_of_false (by simp) (by simp)
      · exact iff_of_true rfl rfl

/-- Witness for C1 at the concrete raw response `x\x7by\x7dz`: position 1 holds
the first opening brace, position 3 the last closing brace, the selected
span `\x7by\x7d` does not parse, and extraction fails with `MalformedPayload`. -/
theorem extract_selects_first_to_last_span_witness :
    extract "x\x7by\x7dz" = .error .MalformedPayload
  ∧ parseChars (("x\x7by\x7dz".data.drop 1).take 3) = none :=
  have h := (extract_selects_first_to_last_span "x\x7by\x7dz").2.2 1 3
    (by
      refine ⟨rfl, ?_⟩
      intro k hk
      interval_cases k
      decide)
    (by
      refine ⟨rfl, ?_⟩
      intro k hk
      rcases Nat.lt_or_ge k 5 with h5 | h5
      · interval_cases k
        decide
      · rw [List.getElem?_eq_none (by simpa using h5)]
        simp)
    (by omega)
  ⟨h.2.mpr rfl, rfl⟩

/-- C2 counterexample: the well-formed payload `\x7b"diagnoses": []\x7d` embedded
in prose whose leading part contains a brace pair is NOT recovered — the
greedy span runs from the prose's first opening brace to the payload's
closing brace and fails to parse — so extraction for arbitrary surrounding
prose does not round-trip. -/
theorem extract_roundtrip_counterexample :
    Json.parse "\x7b\"diagnoses\": []\x7d" = some (.obj [("diagnoses", .arr [])])
  ∧ ("see \x7bthis\x7d " ++ "\x7b\"diagnoses\": []\x7d" ++ "!" : String) =
      "see \x7bthis\x7d \x7b\"diagnoses\": []\x7d!"
  ∧ extract "see \x7bthis\x7d \x7b\"diagnoses\": []\x7d!" = .error .MalformedPayload :=
  ⟨rfl, rfl, rfl⟩

/-- C2 (amended): for every payload string that parses as a record, starts
with an opening brace and ends with a closing brace, and for prose strings
before and after it where the prose before contains no opening brace and
the prose after contains no closing brace, extraction from the
concatenation recovers exactly the embedded record, and every field absent
from the record resolves to the supplied default. -/
theorem extract_embedded_payload_roundtrip (B P A : String) (kvs : List (String × Json))
    (hb : ∀ c ∈ B.data, c ≠ lbrace) (hp1 : P.data[0]? = some lbrace)
    (hp2 : P.data.getLast? = some rbrace) (ha : ∀ c ∈ A.data, c ≠ rbrace)
    (hparse : Json.parse P = some (.obj kvs)) :
    extract (B ++ P ++ A) = .ok (.obj kvs)
  ∧ (∀ (k : String) (d : Json), k ∉ kvs.map Prod.fst → (Json.obj kvs).getD k d = d) :=
  ⟨extract_embed B P A (.obj kvs) hb hp1 hp2 ha hparse,
   fun k d h => getD_of_not_mem kvs k d h⟩

/-- Witness for C2 (amended) at Scenario D's shape: prose before and after
a one-field payload; extraction recovers the record and the three absent
fields resolve to their defaults. -/
theorem extract_embedded_payload_roundtrip_witness :
    extract ("Here is the result: " ++ "\x7b\"diagnoses\": []\x7d" ++ " Thanks!") =
      .ok (.obj [("diagnoses", .arr [])])
  ∧ (Json.obj [("diagnoses", .arr [])]).getD "follow_up_questions" (.arr []) = .arr []
  ∧ (Json.obj [("diagnoses", .arr [])]).getD "suggested_conduct" (.str "") = .str ""
  ∧ (Json.obj [("diagnoses", .arr [])]).getD "suggested_followup" (.str "") = .str "" :=
  have h := extract_embedded_payload_roundtrip "Here is the result: "
    "\x7b\"diagnoses\": []\x7d" " Thanks!" [("diagnoses", .arr [])]
    (by decide) rfl rfl (by decide) rfl
  ⟨h.1, h.2 "follow_up_questions" (.arr []) (by decide),
   h.2 "suggested_conduct" (.str "") (by decide),
   h.2 "suggested_followup" (.str "") (by decide)⟩


/-- C3: when the stripped input is non-empty and the gateway call fails or
the extraction of its response fails, the session keeps the just-appended
observation as the last element of the history, bumps only the input
widget key, and leaves all four analysis fields exactly as they were. -/
theorem submit_failure_keeps_observation_and_analysis (s : SessionState) (input : String)
    (model : String → GatewayResult) (hne : pyStrip input ≠ "")
    (hfail : (∃ msg, model (build_prompt (s.consultation_data ++ [pyStrip input])) =
                .failure msg) ∨
             (∃ text e, model (build_prompt (s.consultation_data ++ [pyStrip input])) =
                .success text ∧ extract text = .error e)) :
    submit s input model =
      ({ s with consultation_data := s.consultation_data ++ [pyStrip input],
                input_key := s.input_key + 1 }, .processed)
  ∧ (submit s input model).1.consultation_data.getLast? = some (pyStrip input)
  ∧ (submit s input model).1.current_diagnoses = s.current_diagnoses
  ∧ (submit s input model).1.follow_up_questions = s.follow_up_questions
  ∧ (submit s input model).1.suggested_conduct = s.suggested_conduct
  ∧ (submit s input model).1.suggested_followup = s.suggested_followup := by
  have hnone : get_ai_analysis (s.consultation_data ++ [pyStrip input]) model = none :=
    (get_ai_analysis_eq_none_iff _ model).mpr hfail
  have heq := submit_eq_of_none s input model hne hnone
  rw [heq]
  exact ⟨rfl, List.getLast?_concat _, rfl, rfl, rfl, rfl⟩

/-- Witness for C3: a gateway failure on a session holding a previous
analysis keeps that analysis and records the new observation. -/
theorem submit_failure_keeps_observation_and_analysis_witness :
    (submit priorSession "b" (fun _ => .failure "boom")).1.current_diagnoses = .arr [.num 7]
  ∧ (submit priorSession "b" (fun _ => .failure "boom")).1.consultation_data.getLast? =
      some "b"
  ∧ (submit priorSession "b" (fun _ => .failure "boom")).1.consultation_data = ["a", "b"] :=
  have h := submit_failure_keeps_observation_and_analysis priorSession "b"
    (fun _ => .failure "boom") (by decide) (Or.inl ⟨"boom", rfl⟩)
  ⟨h.2.2.1, h.2.1, by rw [h.1]; rfl⟩

/-- C10: when the extracted payload parses to the empty record, the
Processar handler skips the update entirely (Python truthiness of the
empty dict): the observation is appended, the widget key bumped, and all
four analysis fields keep their previous values, so no defaults are
applied. -/
theorem submit_empty_payload_skips_update (s : SessionState) (input : String)
    (model : String → GatewayResult) (text : String) (hne : pyStrip input ≠ "")
    (hok : model (build_prompt (s.consultation_data ++ [pyStrip input])) = .success text)
    (hemp : extract text = .ok (.obj [])) :
    submit s input model =
      ({ s with consultation_data := s.consultation_data ++ [pyStrip input],
                input_key := s.input_key + 1 }, .processed)
  ∧ (submit s input model).1.current_diagnoses = s.current_diagnoses
  ∧ (submit s input model).1.follow_up_questions = s.follow_up_questions
  ∧ (submit s input model).1.suggested_conduct = s.suggested_conduct
  ∧ (submit s input model).1.suggested_followup = s.suggested_followup := by
  have hsome := get_ai_analysis_eq_some _ model text (.obj []) hok hemp
  have heq := submit_eq_of_falsy s input model (.obj []) hne hsome rfl
  rw [heq]
  exact ⟨rfl, rfl, rfl, rfl, rfl⟩

/-- Witness for C10: a response whose brace span is exactly `\x7b\x7d` parses
but updates nothing; the previous diagnoses survive. -/
theorem submit_empty_payload_skips_update_witness :
    (submit priorSession "b" (fun _ => .success "result: \x7b\x7d")).1.current_diagnoses =
      .arr [.num 7]
  ∧ (submit priorSession "b"
      (fun _ => .success "result: \x7b\x7d")).1.suggested_conduct = .str "done" :=
  have h := submit_empty_payload_skips_update priorSession "b"
    (fun _ => .success "result: \x7b\x7d") "result: \x7b\x7d" (by decide) rfl rfl
  ⟨h.2.1, h.2.2.2.1⟩

/-- C9: whatever value the parsed payload holds under `diagnoses` is stored
verbatim — no validation and no re-sorting happens between parse and store. -/
theorem submit_stores_diagnoses_verbatim (s : SessionState) (input : String)
    (model : String → GatewayResult) (text : String) (kvs : List (String × Json))
    (d : Json) (hne : pyStrip input ≠ "")
    (hok : model (build_prompt (s.consultation_data ++ [pyStrip input])) = .success text)
    (hex : extract text = .ok (.obj kvs)) (hkvs : kvs ≠ [])
    (hd : assocLast kvs "diagnoses" = some d) :
    (submit s input model).1.current_diagnoses = d := by
  have hsome := get_ai_analysis_eq_some _ model text (.obj kvs) hok hex
  have heq := submit_eq_of_truthy s input model (.obj kvs) hne hsome
    (obj_isTruthy_of_ne_nil kvs hkvs)
  rw [heq]
  exact getD_of_assocLast kvs "diagnoses" (.arr []) d hd

/-- Witness for C9: a payload whose diagnoses carry out-of-range
confidences (150 and 999) in increasing — not ranked — order is stored
exactly as parsed. -/
theorem submit_stores_diagnoses_verbatim_witness :
    (submit priorSession "c" (fun _ => .success
      "\x7b\"diagnoses\": [\x7b\"condition\": \"A\", \"probability\": 150\x7d, \x7b\"condition\": \"B\", \"probability\": 999\x7d]\x7d")).1.current_diagnoses =
    .arr [.obj [("condition", .str "A"), ("probability", .num 150)],
          .obj [("condition", .str "B"), ("probability", .num 999)]] :=
  submit_stores_diagnoses_verbatim priorSession "c" _ _
    [("diagnoses", .arr [.obj [("condition", .str "A"), ("probability", .num 150)],
                         .obj [("condition", .str "B"), ("probability", .num 999)]])]
    _ (by decide) rfl rfl (by simp) rfl

/-- C8 counterexample: the empty record `\x7b\x7d` is a successfully parsed
payload from which all four fields are absent, yet after submitting it the
stored diagnoses are NOT set to the default empty sequence — the previous
value survives because the handler skips falsy payloads. -/
theorem submit_field_defaults_counterexample :
    extract "result: \x7b\x7d" = .ok (.obj [])
  ∧ (submit priorSession "b" (fun _ => .success "result: \x7b\x7d")).1.current_diagnoses =
      .arr [.num 7]
  ∧ (submit priorSession "b" (fun _ => .success "result: \x7b\x7d")).1.current_diagnoses ≠
      .arr [] := by
  refine ⟨rfl, rfl, ?_⟩
  intro h
  have h2 : (Json.arr [Json.num 7]) = Json.arr [] := h
  injection h2 with h3
  exact absurd h3 (by simp)

/-- C8 (amended): for every successfully parsed payload with at least one
field, each of the four expected fields is resolved from the record with
its type's default substituted when absent, and fields outside the four
expected ones are ignored: two payloads agreeing on the four expected keys
produce identical stored states. -/
theorem submit_field_defaults_and_unknown_ignored (s : SessionState) (input : String)
    (model : String → GatewayResult) (text : String) (kvs : List (String × Json))
    (hne : pyStrip input ≠ "")
    (hok : model (build_prompt (s.consultation_data ++ [pyStrip input])) = .success text)
    (hex : extract text = .ok (.obj kvs)) (hkvs : kvs ≠ []) :
    ((submit s input model).1.current_diagnoses = (Json.obj kvs).getD "diagnoses" (.arr [])
    ∧ (submit s input model).1.follow_up_questions =
        (Json.obj kvs).getD "follow_up_questions" (.arr [])
    ∧ (submit s input model).1.suggested_conduct =
        (Json.obj kvs).getD "suggested_conduct" (.str "")
    ∧ (submit s input model).1.suggested_followup =
        (Json.obj kvs).getD "suggested_followup" (.str ""))
  ∧ ("diagnoses" ∉ kvs.map Prod.fst →
      (submit s input model).1.current_diagnoses = .arr [])
  ∧ ("follow_up_questions" ∉ kvs.map Prod.fst →
      (submit s input model).1.follow_up_questions = .arr [])
  ∧ ("suggested_conduct" ∉ kvs.map Prod.fst →
      (submit s input model).1.suggested_conduct = .str "")
  ∧ ("suggested_followup" ∉ kvs.map Prod.fst →
      (submit s input model).1.suggested_followup = .str "")
  ∧ (∀ (model' : String → GatewayResult) (text' : String) (kvs' : List (String × Json)),
      model' (build_prompt (s.consultation_data ++ [pyStrip input])) = .success text' →
      extract text' = .ok (.obj kvs') → kvs' ≠ [] →
      (∀ k : String, k ∈ ["diagnoses", "follow_up_questions", "suggested_conduct",
        "suggested_followup"] → assocLast kvs' k = assocLast kvs k) →
      (submit s input model').1 = (submit s input model).1) := by
  have hsome := get_ai_analysis_eq_some _ model text (.obj kvs) hok hex
  have heq := submit_eq_of_truthy s input model (.obj kvs) hne hsome
    (obj_isTruthy_of_ne_nil kvs hkvs)
  refine ⟨?_, ?_, ?_, ?_, ?_, ?_⟩
  · rw [heq]
    exact ⟨rfl, rfl, rfl, rfl⟩
  · intro h; rw [heq]; exact getD_of_not_mem kvs _ _ h
  · intro h; rw [heq]; exact getD_of_not_mem kvs _ _ h
  · intro h; rw [heq]; exact getD_of_not_mem kvs _ _ h
  · intro h; rw [heq]; exact getD_of_not_mem kvs _ _ h
  · intro model' text' kvs' hok' hex' hkvs' hagree
    have hsome' := get_ai_analysis_eq_some _ model' text' (.obj kvs') hok' hex'
    have heq' := submit_eq_of_truthy s input model' (.obj kvs') hne hsome'
      (obj_isTruthy_of_ne_nil kvs' hkvs')
    rw [heq, heq']
    have hg : ∀ (k : String) (d : Json), k ∈ ["diagnoses", "follow_up_questions",
        "suggested_conduct", "suggested_followup"] →
        (Json.obj kvs').getD k d = (Json.obj kvs).getD k d := by
      intro k d hk
      show (match assocLast kvs' k with | some v => v | none => d) =
        (match assocLast kvs k with | some v => v | none => d)
      rw [hagree k hk]
    have e1 := hg "diagnoses" (.arr []) (by simp)
    have e2 := hg "follow_up_questions" (.arr []) (by simp)
    have e3 := hg "suggested_conduct" (.str "") (by simp)
    have e4 := hg "suggested_followup" (.str "") (by simp)
    rw [e1, e2, e3, e4]

/-- Witness for C8 (amended): the payload `\x7b"diagnoses": [], "foo": 1\x7d`
stores the parsed empty diagnoses list, defaults the three absent fields,
and the unknown field `foo` changes nothing relative to the same payload
without it. -/
theorem submit_field_defaults_and_unknown_ignored_witness :
    (submit priorSession "b"
      (fun _ => .success "\x7b\"diagnoses\": [], \"foo\": 1\x7d")).1.current_diagnoses = .arr []
  ∧ (submit priorSession "b"
      (fun _ => .success "\x7b\"diagnoses\": [], \"foo\": 1\x7d")).1.follow_up_questions =
      .arr []
  ∧ (submit priorSession "b"
      (fun _ => .success "\x7b\"diagnoses\": [], \"foo\": 1\x7d")).1.suggested_conduct =
      .str ""
  ∧ (submit priorSession "b"
      (fun _ => .success "\x7b\"diagnoses\": [], \"foo\": 1\x7d")).1.suggested_followup =
      .str ""
  ∧ (submit priorSession "b"
      (fun _ => .success "\x7b\"diagnoses\": [], \"foo\": 1\x7d")).1 =
    (submit priorSession "b" (fun _ => .success "\x7b\"diagnoses\": []\x7d")).1 :=
  have h := submit_field_defaults_and_unknown_ignored priorSession "b"
    (fun _ => .success "\x7b\"diagnoses\": [], \"foo\": 1\x7d")
    "\x7b\"diagnoses\": [], \"foo\": 1\x7d"
    [("diagnoses", .arr []), ("foo", .num 1)] (by decide) rfl rfl (by simp)
  ⟨(h.1.1).trans rfl, h.2.2.1 (by decide), h.2.2.2.1 (by decide), h.2.2.2.2.1 (by decide),
   (h.2.2.2.2.2 (fun _ => .success "\x7b\"diagnoses\": []\x7d") "\x7b\"diagnoses\": []\x7d"
      [("diagnoses", .arr [])] rfl rfl (by simp)
      (by intro k hk; fin_cases hk <;> rfl)).symm⟩

/-- C6: a submission whose stripped text is non-empty appends exactly that
stripped text as one new element — the old history is a strict prefix and
the length grows by exactly one — and the handler takes the processing
branch; a submission whose stripped text is empty takes the rejection
branch and leaves every session field untouched. -/
theorem submit_appends_or_rejects (s : SessionState) (input : String)
    (model : String → GatewayResult) :
    (pyStrip input ≠ "" →
      ((submit s input model).1.consultation_data = s.consultation_data ++ [pyStrip input]
      ∧ (submit s input model).1.consultation_data.length = s.consultation_data.length + 1
      ∧ s.consultation_data <+: (submit s input model).1.consultation_data
      ∧ (submit s input model).1.consultation_data ≠ s.consultation_data
      ∧ (submit s input model).2 = .processed))
  ∧ (pyStrip input = "" → submit s input model = (s, .emptyInput)) := by
  constructor
  · intro hne
    obtain ⟨hdata, hout⟩ := submit_processed_parts s input model hne
    refine ⟨hdata, by rw [hdata]; simp, by rw [hdata]; exact List.prefix_append _ _, ?_, hout⟩
    rw [hdata]
    intro h
    have := congrArg List.length h
    simp at this
  · intro he
    exact submit_eq_of_empty s input model he

/-- Witness for C6: a padded input is appended in stripped form; a
whitespace-only input is rejected with the session intact. -/
theorem submit_appends_or_rejects_witness :
    (submit priorSession "  hi " (fun _ => .failure "x")).1.consultation_data = ["a", "hi"]
  ∧ (submit priorSession "  hi " (fun _ => .failure "x")).2 = .processed
  ∧ submit priorSession " \n " (fun _ => .failure "x") = (priorSession, .emptyInput) :=
  have h1 := (submit_appends_or_rejects priorSession "  hi " (fun _ => .failure "x")).1
    (by decide)
  have h2 := (submit_appends_or_rejects priorSession " \n " (fun _ => .failure "x")).2
    (by decide)
  ⟨h1.1.trans rfl, h1.2.2.2.2, h2⟩

/-- C7 counterexample: clearing a session whose API key is `k` leaves the
key equal to `k`, not reset to the initial empty credential — `clear` does
not reset every session field. -/
theorem clear_keeps_credential_counterexample :
    (clear priorSession).api_key = "k"
  ∧ ("k" : String) ≠ ""
  ∧ initialState.api_key = "" :=
  ⟨rfl, by decide, rfl⟩

/-- C7 (amended): for every prior state, clear empties the observation
list, resets all four analysis fields to their initial empty values and
bumps the input widget key, while leaving the credential unchanged; and
clearing is the only operation that shrinks the observation list — a
submission or a credential update never removes elements. -/
theorem clear_resets_all_but_credential (s : SessionState) (input k : String)
    (model : String → GatewayResult) :
    clear s = { consultation_data := []
                api_key := s.api_key
                current_diagnoses := .arr []
                follow_up_questions := .arr []
                suggested_conduct := .str ""
                suggested_followup := .str ""
                input_key := s.input_key + 1 }
  ∧ s.consultation_data <+: (submit s input model).1.consultation_data
  ∧ (set_api_key s k).consultation_data = s.consultation_data := by
  refine ⟨rfl, ?_, ?_⟩
  · by_cases hne : pyStrip input = ""
    · rw [submit_eq_of_empty s input model hne]
    · rw [(submit_processed_parts s input model hne).1]
      exact List.prefix_append _ _
  · unfold set_api_key
    by_cases hk : k = ""
    · rw [if_neg (by simp [hk])]
    · rw [if_pos hk]

set_option maxRecDepth 20000 in
/-- C5: the prompt is a pure function of the observation list: the fixed
header, then every observation tagged with its 1-based position joined in
insertion order, then the fixed instruction block, which names the four
expected field names in order and shows an example shape; in particular
the prompt for two observations contains both texts in order. -/
theorem build_prompt_structure (cd : List String) :
    build_prompt cd = promptHeader ++ joinLines (tagLines cd) ++ promptInstructions
  ∧ (tagLines cd).length = cd.length
  ∧ (∀ (i : Nat) (s : String), cd[i]? = some s →
      (tagLines cd)[i]? = some ("Input " ++ toString (i + 1) ++ ": " ++ s))
  ∧ (∀ o1 o2 : String, build_prompt [o1, o2] =
      (promptHeader ++ "Input 1: ") ++ o1 ++ "\nInput 2: " ++ o2 ++ promptInstructions)
  ∧ (∃ a0 a1 a2 a3 a4 : String, promptInstructions =
      a0 ++ "\"diagnoses\"" ++ a1 ++ "\"follow_up_questions\"" ++ a2 ++
      "\"suggested_conduct\"" ++ a3 ++ "\"suggested_followup\"" ++ a4) := by
  refine ⟨rfl, tagLines_length cd, ?_, ?_, ?_⟩
  · intro i s h
    unfold tagLines
    rw [tagLinesFrom_getElem? cd 0 i, h]
    simp [inputTag, Nat.zero_add]
  · intro o1 o2
    apply String.ext
    have hj : build_prompt [o1, o2] =
        promptHeader ++ (inputTag 0 o1 ++ "\n" ++ inputTag 1 o2) ++ promptInstructions := rfl
    rw [hj]
    simp only [inputTag, String.data_append, List.append_assoc]
    rfl
  · exact ⟨"\n\nPlease provide your response in the following JSON format:\n\x7b\n    ",
      ": [\n        \x7b\"condition\": \"Diagnosis 1\", \"probability\": 85\x7d,\n        \x7b\"condition\": \"Diagnosis 2\", \"probability\": 70\x7d,\n        \x7b\"condition\": \"Diagnosis 3\", \"probability\": 45\x7d,\n        \x7b\"condition\": \"Diagnosis 4\", \"probability\": 30\x7d\n    ],\n    ",
      ": [\n        \"Question 1 to gather more information\",\n        \"Question 2 to clarify symptoms\",\n        \"Question 3 to understand duration\"\n    ],\n    ",
      ": \"Immediate actions and treatment recommendations, in Brazilian Portuguese\",\n    ",
      ": \"Recommended examinations, tests, and follow-up appointments, in Brazilian Portuguese\"\n\x7d\n\nImportant:\n- Diagnoses should be ranked by probability (highest first) and must be in Brazilian Portuguese\n- Probabilities should be realistic and sum to reasonable medical uncertainty\n- Follow-up questions should be specific and relevant to the current information\n- Conduct suggestions should be immediate, actionable medical advice\n- Follow-up should include specific tests, examinations, or specialist referrals\n- Keep medical advice general and emphasize the need for proper medical evaluation\n",
      by rfl⟩

/-- Witness for C5: the prompt for the two observations `alpha` then
`bravo` tags them `Input 1`/`Input 2` in order. -/
theorem build_prompt_structure_witness :
    (tagLines ["alpha", "bravo"])[1]? = some "Input 2: bravo"
  ∧ build_prompt ["alpha", "bravo"] =
      (promptHeader ++ "Input 1: ") ++ "alpha" ++ "\nInput 2: " ++ "bravo" ++
        promptInstructions :=
  have h := build_prompt_structure ["alpha", "bravo"]
  ⟨(h.2.2.1 1 "bravo" rfl).trans rfl, h.2.2.2.1 "alpha" "bravo"⟩

/-- C4 (amended): in every reachable instrumented session the stored
analysis is either fully absent (all four fields at their initial empty
values) or fully derived from a prefix of the current observation list —
the observation history as of the most recent successful analysis. -/
theorem reachable_analysis_prefix_invariant (t : Traced) (h : Reach t) : DerivInv t := by
  induction h with
  | init => exact ⟨rfl, rfl, rfl, rfl⟩
  | @submit_step t input model hreach hkey ih =>
    by_cases hne : pyStrip input = ""
    · rw [stepSubmit_of_empty t input model hne]
      exact ih
    · cases hga : get_ai_analysis (t.state.consultation_data ++ [pyStrip input]) model with
      | none =>
        rw [stepSubmit_of_none t input model hne hga,
          submit_eq_of_none t.state input model hne hga]
        unfold DerivInv at ih ⊢
        cases hd : t.deriv with
        | none =>
          rw [hd] at ih
          exact ih
        | some pair =>
          rw [hd] at ih
          exact ⟨ih.1.trans (List.prefix_append _ _), ih.2⟩
      | some a =>
        cases ht : a.isTruthy with
        | false =>
          rw [stepSubmit_of_falsy t input model a hne hga ht,
            submit_eq_of_falsy t.state input model a hne hga ht]
          unfold DerivInv at ih ⊢
          cases hd : t.deriv with
          | none =>
            rw [hd] at ih
            exact ih
          | some pair =>
            rw [hd] at ih
            exact ⟨ih.1.trans (List.prefix_append _ _), ih.2⟩
        | true =>
          rw [stepSubmit_of_truthy t input model a hne hga ht,
            submit_eq_of_truthy t.state input model a hne hga ht]
          exact ⟨List.prefix_refl _, ht, rfl, rfl, rfl, rfl⟩
  | @clear_step t hreach ih =>
    exact ⟨rfl, rfl, rfl, rfl⟩
  | @set_key_step t k hreach ih =>
    unfold DerivInv at ih ⊢
    unfold set_api_key
    by_cases hk : k = ""
    · rw [if_neg (by simp [hk])]
      exact ih
    · rw [if_pos hk]
      cases hd : t.deriv with
      | none =>
        rw [hd] at ih
        exact ih
      | some pair =>
        rw [hd] at ih
        exact ih

/-- Witness for C4 (amended): the invariant holds at the initial session. -/
theorem reachable_analysis_prefix_invariant_witness : DerivInv ⟨initialState, none⟩ :=
  reachable_analysis_prefix_invariant ⟨initialState, none⟩ Reach.init


/-- C4 counterexample: after a successful analysis of `["a"]` and a failed
submission of `b`, the reachable session stores observations `["a", "b"]`
while its analysis is still the one derived from `["a"]` — the strict
invariant "fully absent or fully derived from the current observation
list" does not hold. -/
theorem strict_current_invariant_counterexample :
    Reach cx4end
  ∧ cx4end.deriv = some (["a"],
      .obj [("diagnoses", .arr [.obj [("condition", .str "Dengue"), ("probability", .num 60)]])])
  ∧ cx4end.state.consultation_data = ["a", "b"]
  ∧ cx4end.state.current_diagnoses =
      .arr [.obj [("condition", .str "Dengue"), ("probability", .num 60)]]
  ∧ ¬ StrictDerivInv cx4end := by
  refine ⟨?_, rfl, rfl, rfl, ?_⟩
  · exact Reach.submit_step "b" cx4model2
      (Reach.submit_step "a" cx4model1 (Reach.set_key_step "k" Reach.init) (by decide))
      (by decide)
  · intro h
    have h2 : (["a"] : List String) = ["a", "b"] := h.1
    exact absurd h2 (by decide)
